import Mathlib

/-!
Verification development for the profile-page controllers
(core/controllers/profile.py): the public profile page, the preferences
handlers, the editor-prerequisites flow and the username check.

The handler bodies are translated directly from the source. The
user-settings service layer lives outside this module; its operations are
modelled from the specification (each such definition says so in its doc
comment). The abstract username format validator is a parameter of the
development: theorems quantify over it.
-/

namespace Profile

/-- A JSON-like payload value, as delivered to a handler by the request
framework via `self.payload.get(...)`. A missing key is `Option.none`
around this type. -/
inductive JValue where
  | null : JValue
  | bool : Bool → JValue
  | str : String → JValue
  | num : Int → JValue
  deriving Repr, DecidableEq

/-- Modelled from the spec: the externally persisted user-settings entity.
Attributes referenced by this module: `user_bio` (text),
`preferred_language_codes` (list of language identifiers), `username`
(nullable until set), `last_agreed_to_terms` (timestamp or absent). The
two free-form fields are stored as the JSON values the service received. -/
structure UserSettings where
  user_bio : JValue
  preferred_language_codes : JValue
  username : Option String
  last_agreed_to_terms : Option Nat
  deriving Repr, DecidableEq

/-- Modelled from the spec: the external user-settings store, a mapping
from user id to settings. -/
structure ServiceState where
  users : List (String × UserSettings)
  deriving Repr, DecidableEq

/-- Dictionary lookup on a request payload, as in `self.payload.get(key)`:
`none` when the key is absent. -/
def payloadGet (payload : List (String × JValue)) (key : String) : Option JValue :=
  (payload.find? fun p => p.1 == key).map fun p => p.2

/-- Modelled from the spec: `user_services.get_user_settings`, the read of
one user record by user id. -/
def get_user_settings (st : ServiceState) (uid : String) : Option UserSettings :=
  (st.users.find? fun p => p.1 == uid).map fun p => p.2

/-- Modelled from the spec: `user_services.get_user_settings_from_username`,
the read of one user record by its (set) username. -/
def get_user_settings_from_username (st : ServiceState) (username : String) : Option UserSettings :=
  (st.users.find? fun p => p.2.username == some username).map fun p => p.2

/-- Point update of one user record in the store, leaving every other
record unchanged; shared shape of the modelled write operations. -/
def updateUser (st : ServiceState) (uid : String) (f : UserSettings → UserSettings) : ServiceState :=
  ⟨st.users.map fun p => if p.1 == uid then (p.1, f p.2) else p⟩

/-- Modelled from the spec: `user_services.get_username`, the current
username of a user, absent when never set. -/
def get_username (st : ServiceState) (uid : String) : Option String :=
  (get_user_settings st uid).bind fun us => us.username

/-- Python truthiness of the value `get_username` returns: `None` and the
empty string are falsy, any other string is truthy. -/
def optStrTruthy : Option String → Bool
  | none => false
  | some s => s != ""

/-- Modelled from the spec: `user_services.record_agreement_to_terms`
stores a present `last_agreed_to_terms` value for the user (idempotent;
the concrete timestamp is irrelevant to this module). -/
def record_agreement_to_terms (st : ServiceState) (uid : String) : ServiceState :=
  updateUser st uid fun us => { us with last_agreed_to_terms := some 1 }

/-- Modelled from the spec: `user_services.update_user_bio` stores the
submitted bio value for the user (a missing payload value arrives as
JSON null). -/
def update_user_bio (st : ServiceState) (uid : String) (data : Option JValue) : ServiceState :=
  updateUser st uid fun us => { us with user_bio := data.getD JValue.null }

/-- Modelled from the spec: `user_services.update_preferred_language_codes`
stores the submitted language-codes value for the user. -/
def update_preferred_language_codes (st : ServiceState) (uid : String) (data : Option JValue) : ServiceState :=
  updateUser st uid fun us => { us with preferred_language_codes := data.getD JValue.null }

/-- The username a payload value denotes when it is a JSON string. -/
def usernameOfPayloadValue : Option JValue → Option String
  | some (JValue.str s) => some s
  | _ => none

/-- Modelled from the spec: `user_services.is_username_taken` holds iff
the queried username already exists among stored user settings. -/
def is_username_taken (st : ServiceState) (v : Option JValue) : Bool :=
  match usernameOfPayloadValue v with
  | none => false
  | some s => st.users.any fun p => p.2.username == some s

/-- Modelled from the spec: `user_services.set_username` validates the
submitted value (format via the abstract static validator
`require_valid_username`, availability via the taken check) and raises a
ValidationError message on failure; on success it stores the username. -/
def set_username (require_valid_username : Option JValue → Option String)
    (st : ServiceState) (uid : String) (username : Option JValue) :
    Except String ServiceState :=
  match require_valid_username username with
  | some msg => Except.error msg
  | none =>
      if is_username_taken st username then
        Except.error "Sorry, this username is already taken."
      else
        Except.ok (updateUser st uid fun us => { us with username := usernameOfPayloadValue username })

/-- The navigation-mode constant `feconf.NAV_MODE_PROFILE` (external
constant; its concrete text is irrelevant to this module). -/
def NAV_MODE_PROFILE : String := "profile"

/-- Python str() of a payload value, used when a value is spliced into an
error message with percent-s formatting. -/
def pyStr : Option JValue → String
  | none => "None"
  | some JValue.null => "None"
  | some (JValue.bool true) => "True"
  | some (JValue.bool false) => "False"
  | some (JValue.str s) => s
  | some (JValue.num n) => toString n

/-- Outcome of a page-rendering GET handler: the not-found condition, or a
rendered template together with the values merged into its context. -/
inductive PageResult where
  | notFound : PageResult
  | render (template : String) (nav_mode : String) (user_bio : JValue) : PageResult
  deriving Repr, DecidableEq

/-- Outcome of a JSON handler: a success body (possibly empty) or the
invalid-input condition, each together with the service state at that
point. -/
inductive JsonResult where
  | ok (json : List (String × JValue)) (st : ServiceState) : JsonResult
  | invalidInput (msg : String) (st : ServiceState) : JsonResult
  deriving Repr, DecidableEq

/-- The service state a handler outcome leaves behind. -/
def JsonResult.state : JsonResult → ServiceState
  | JsonResult.ok _ st => st
  | JsonResult.invalidInput _ st => st

/-- ProfilePage.get, translated from the source: empty or unknown username
raises PageNotFoundException, otherwise the profile template is rendered
with the navigation mode and the stored bio. The handler performs no
writes: its result carries no successor state. -/
def profilePageGet (st : ServiceState) (username : String) : PageResult :=
  if username == "" then PageResult.notFound
  else
    match get_user_settings_from_username st username with
    | none => PageResult.notFound
    | some us => PageResult.render "profile/profile.html" NAV_MODE_PROFILE us.user_bio

/-- PreferencesHandler.get, translated from the source: the JSON body
holds the current bio and preferred language codes; `none` models the
impossible case of an authenticated user with no record. -/
def preferencesGet (st : ServiceState) (uid : String) : Option (List (String × JValue)) :=
  (get_user_settings st uid).map fun us =>
    [("user_bio", us.user_bio), ("preferred_language_codes", us.preferred_language_codes)]

/-- PreferencesHandler.put, translated from the source: dispatch on the
payload update type, raising InvalidInputException on anything other than
the two recognised values. -/
def preferencesPut (st : ServiceState) (uid : String) (payload : List (String × JValue)) : JsonResult :=
  let update_type := payloadGet payload "update_type"
  let data := payloadGet payload "data"
  if update_type == some (JValue.str "user_bio") then
    JsonResult.ok [] (update_user_bio st uid data)
  else if update_type == some (JValue.str "preferred_language_codes") then
    JsonResult.ok [] (update_preferred_language_codes st uid data)
  else
    JsonResult.invalidInput ("Invalid update type: " ++ pyStr update_type) st

/-- The JSON value of a nullable username field. -/
def jOfOptStr : Option String → JValue
  | none => JValue.null
  | some s => JValue.str s

/-- EditorPrerequisitesHandler.get, translated from the source: the JSON
body holds whether the user has agreed to terms (truthiness of the stored
`last_agreed_to_terms`) and the current username. -/
def editorPrerequisitesGet (st : ServiceState) (uid : String) : Option (List (String × JValue)) :=
  (get_user_settings st uid).map fun us =>
    [("has_agreed_to_terms", JValue.bool us.last_agreed_to_terms.isSome),
     ("username", jOfOptStr us.username)]

/-- The license-terms message of EditorPrerequisitesHandler.post. -/
def licenseTermsMsg : String :=
  "In order to edit explorations on this site, you will need to accept the license terms."

/-- The username-assignment phase of EditorPrerequisitesHandler.post,
reached only after agreement has been recorded: skip with empty success
when a username is already set, otherwise attempt `set_username`,
re-raising its ValidationError as InvalidInputException. -/
def usernamePhase (require_valid_username : Option JValue → Option String)
    (st : ServiceState) (uid : String) (username : Option JValue) : JsonResult :=
  if optStrTruthy (get_username st uid) then
    JsonResult.ok [] st
  else
    match set_username require_valid_username st uid username with
    | Except.ok st2 => JsonResult.ok [] st2
    | Except.error e => JsonResult.invalidInput e st

/-- EditorPrerequisitesHandler.post, translated from the source: any
payload value other than the strict boolean true for agreed_to_terms
raises InvalidInputException before anything is written; otherwise the
agreement is recorded and the username phase runs on the updated state. -/
def editorPrerequisitesPost (require_valid_username : Option JValue → Option String)
    (st : ServiceState) (uid : String) (payload : List (String × JValue)) : JsonResult :=
  let username := payloadGet payload "username"
  match payloadGet payload "agreed_to_terms" with
  | some (JValue.bool true) =>
      usernamePhase require_valid_username (record_agreement_to_terms st uid) uid username
  | _ => JsonResult.invalidInput licenseTermsMsg st

/-- UsernameCheckHandler.post, translated from the source: the static
format validator runs first, its ValidationError re-raised as
InvalidInputException; on success the body reports whether the username
is taken. The handler performs no writes. -/
def usernameCheckPost (require_valid_username : Option JValue → Option String)
    (st : ServiceState) (_uid : String) (payload : List (String × JValue)) : JsonResult :=
  let username := payloadGet payload "username"
  match require_valid_username username with
  | some msg => JsonResult.invalidInput msg st
  | none =>
      JsonResult.ok [("username_is_taken", JValue.bool (is_username_taken st username))] st

/-- A user record for witness instances: username set, terms agreed. -/
def aliceSettings : UserSettings :=
  { user_bio := JValue.str "hello", preferred_language_codes := JValue.str "en",
    username := some "alice", last_agreed_to_terms := some 5 }

/-- A user record for witness instances: fresh user, nothing set. -/
def freshSettings : UserSettings :=
  { user_bio := JValue.null, preferred_language_codes := JValue.null,
    username := none, last_agreed_to_terms := none }

/-- A concrete store for witness instances. -/
def sampleState : ServiceState :=
  ⟨[("u1", aliceSettings), ("u2", freshSettings)]⟩

/-- A format validator accepting every value, for witness instances. -/
def acceptAll : Option JValue → Option String := fun _ => none

/-- A format validator rejecting every value, for witness instances. -/
def rejectAll : Option JValue → Option String := fun _ => some "bad username"

/-- A payload accepting the terms and proposing a username. -/
def payloadAgreeBob : List (String × JValue) :=
  [("agreed_to_terms", JValue.bool true), ("username", JValue.str "bob")]

/-- A payload whose agreement value is a truthy string, not the boolean. -/
def payloadNoTerms : List (String × JValue) :=
  [("agreed_to_terms", JValue.str "yes"), ("username", JValue.str "bob")]

/-- A payload accepting the terms with no username key at all. -/
def payloadAgreeOnly : List (String × JValue) :=
  [("agreed_to_terms", JValue.bool true)]

/-- A preferences payload updating the bio. -/
def payloadBioPut : List (String × JValue) :=
  [("update_type", JValue.str "user_bio"), ("data", JValue.str "new bio")]

/-- A preferences payload updating the language codes. -/
def payloadLangPut : List (String × JValue) :=
  [("update_type", JValue.str "preferred_language_codes"), ("data", JValue.str "fr")]

/-- A preferences payload with an unrecognised update type. -/
def payloadBadPut : List (String × JValue) :=
  [("update_type", JValue.str "colour"), ("data", JValue.null)]

/-- A payload holding only a username. -/
def payloadUsernameBob : List (String × JValue) :=
  [("username", JValue.str "bob")]

theorem get_user_settings_updateUser_self (st : ServiceState) (uid : String)
    (f : UserSettings → UserSettings) :
    get_user_settings (updateUser st uid f) uid = (get_user_settings st uid).map f := by
  rcases st with ⟨users⟩
  induction users with
  | nil => rfl
  | cons p l ih =>
      rcases p with ⟨k, us⟩
      simp only [get_user_settings, updateUser, List.map_cons] at ih ⊢
      cases hk : k == uid with
      | false =>
          simp only [List.find?_cons, hk, Bool.false_eq_true, if_false]
          exact ih
      | true =>
          simp only [List.find?_cons, hk, if_true]
          rfl

theorem get_user_settings_updateUser_ne (st : ServiceState) (uidW uidR : String)
    (f : UserSettings → UserSettings) (h : uidR ≠ uidW) :
    get_user_settings (updateUser st uidW f) uidR = get_user_settings st uidR := by
  rcases st with ⟨users⟩
  induction users with
  | nil => rfl
  | cons p l ih =>
      rcases p with ⟨k, us⟩
      simp only [get_user_settings, updateUser, List.map_cons] at ih ⊢
      cases hkW : k == uidW with
      | false =>
          simp only [List.find?_cons, hkW, Bool.false_eq_true, if_false]
          cases hkR : k == uidR with
          | false =>
              simp only [List.find?_cons, hkR, Bool.false_eq_true]
              exact ih
          | true =>
              simp only [List.find?_cons, hkR]
      | true =>
          have hne : (k == uidR) = false := by
            rw [beq_eq_false_iff_ne]
            intro hh
            exact h (hh ▸ eq_of_beq hkW)
          simp only [List.find?_cons, hkW, hne, if_true, Bool.false_eq_true]
          exact ih

theorem get_user_settings_record (st : ServiceState) (uid : String) :
    get_user_settings (record_agreement_to_terms st uid) uid =
      (get_user_settings st uid).map fun us => { us with last_agreed_to_terms := some 1 } := by
  simp [record_agreement_to_terms, get_user_settings_updateUser_self]

theorem get_username_updateUser (st : ServiceState) (uid : String)
    (f : UserSettings → UserSettings) (hf : ∀ us, (f us).username = us.username) :
    get_username (updateUser st uid f) uid = get_username st uid := by
  simp only [get_username, get_user_settings_updateUser_self]
  cases get_user_settings st uid with
  | none => rfl
  | some us => simp [hf]

theorem get_username_record (st : ServiceState) (uid : String) :
    get_username (record_agreement_to_terms st uid) uid = get_username st uid := by
  simpa [record_agreement_to_terms] using
    get_username_updateUser st uid (fun us => { us with last_agreed_to_terms := some 1 })
      (fun _ => rfl)

theorem set_username_ok_shape (v : Option JValue → Option String) (st : ServiceState)
    (uid : String) (un : Option JValue) (st2 : ServiceState)
    (h : set_username v st uid un = Except.ok st2) :
    st2 = updateUser st uid fun us => { us with username := usernameOfPayloadValue un } := by
  unfold set_username at h
  cases hv : v un with
  | some msg => rw [hv] at h; cases h
  | none =>
      rw [hv] at h
      by_cases ht : is_username_taken st un = true
      · simp [ht] at h
      · simp [ht] at h
        exact h.symm

theorem editorPost_agree (v : Option JValue → Option String) (st : ServiceState)
    (uid : String) (payload : List (String × JValue))
    (h : payloadGet payload "agreed_to_terms" = some (JValue.bool true)) :
    editorPrerequisitesPost v st uid payload =
      usernamePhase v (record_agreement_to_terms st uid) uid (payloadGet payload "username") := by
  simp [editorPrerequisitesPost, h]

theorem editorPost_no_agree (v : Option JValue → Option String) (st : ServiceState)
    (uid : String) (payload : List (String × JValue))
    (h : payloadGet payload "agreed_to_terms" ≠ some (JValue.bool true)) :
    editorPrerequisitesPost v st uid payload =
      JsonResult.invalidInput licenseTermsMsg st := by
  cases hag : payloadGet payload "agreed_to_terms" with
  | none => simp [editorPrerequisitesPost, hag]
  | some jv =>
      cases jv with
      | null => simp [editorPrerequisitesPost, hag]
      | str s => simp [editorPrerequisitesPost, hag]
      | num n => simp [editorPrerequisitesPost, hag]
      | bool b =>
          cases b with
          | false => simp [editorPrerequisitesPost, hag]
          | true => exact absurd hag h

theorem get_username_update_user_bio (st : ServiceState) (uid : String) (d : Option JValue) :
    get_username (update_user_bio st uid d) uid = get_username st uid := by
  unfold update_user_bio
  exact get_username_updateUser st uid _ (fun _ => rfl)

theorem get_username_update_preferred (st : ServiceState) (uid : String) (d : Option JValue) :
    get_username (update_preferred_language_codes st uid d) uid = get_username st uid := by
  unfold update_preferred_language_codes
  exact get_username_updateUser st uid _ (fun _ => rfl)

/-- C1: once a username is set (nonempty, as the source tests Python
truthiness), nothing in this module changes it: a POST to
EditorPrerequisitesHandler with agreed_to_terms true returns the empty
success JSON with only the agreement recorded, and the stored username is
the same after any editor POST, any preferences PUT and any username
check. -/
theorem c1_username_immutable (v : Option JValue → Option String) (st : ServiceState)
    (uid u : String) (payload : List (String × JValue))
    (hset : get_username st uid = some u) (hne : u ≠ "") :
    (payloadGet payload "agreed_to_terms" = some (JValue.bool true) →
      editorPrerequisitesPost v st uid payload =
        JsonResult.ok [] (record_agreement_to_terms st uid)) ∧
    get_username (editorPrerequisitesPost v st uid payload).state uid = some u ∧
    get_username (preferencesPut st uid payload).state uid = some u ∧
    get_username (usernameCheckPost v st uid payload).state uid = some u := by
  have hrec : get_username (record_agreement_to_terms st uid) uid = some u := by
    rw [get_username_record]
    exact hset
  have htru : optStrTruthy (get_username (record_agreement_to_terms st uid) uid) = true := by
    rw [hrec]
    simp [optStrTruthy, bne_iff_ne]
    exact hne
  refine ⟨fun h => ?_, ?_, ?_, ?_⟩
  · rw [editorPost_agree v st uid payload h]
    simp [usernamePhase, htru]
  · by_cases hag : payloadGet payload "agreed_to_terms" = some (JValue.bool true)
    · rw [editorPost_agree v st uid payload hag]
      simp [usernamePhase, htru, JsonResult.state]
      exact hrec
    · rw [editorPost_no_agree v st uid payload hag]
      simpa [JsonResult.state] using hset
  · simp only [preferencesPut]
    split
    · simpa [JsonResult.state, get_username_update_user_bio] using hset
    · split
      · simpa [JsonResult.state, get_username_update_preferred] using hset
      · simpa [JsonResult.state] using hset
  · simp only [usernameCheckPost]
    cases hv : v (payloadGet payload "username") with
    | none => simpa [hv, JsonResult.state] using hset
    | some msg => simpa [hv, JsonResult.state] using hset

/-- C1 witness: a POST re-submitting a different username for a user whose
username is already set is an empty success leaving the username intact. -/
theorem c1_witness :
    editorPrerequisitesPost acceptAll sampleState "u1" payloadAgreeBob =
      JsonResult.ok [] (record_agreement_to_terms sampleState "u1") ∧
    get_username (editorPrerequisitesPost acceptAll sampleState "u1" payloadAgreeBob).state "u1" =
      some "alice" :=
  ⟨(c1_username_immutable acceptAll sampleState "u1" "alice" payloadAgreeBob
      (by decide) (by decide)).1 (by decide),
   (c1_username_immutable acceptAll sampleState "u1" "alice" payloadAgreeBob
      (by decide) (by decide)).2.1⟩

/-- C2: a POST whose agreed_to_terms value is anything but the strict
boolean true raises invalid input with the license message, the state
untouched; when it is strictly true, the handler records the agreement
first and only then runs the username phase, so every outcome leaves the
agreement stored. -/
theorem c2_terms_gate (v : Option JValue → Option String) (st : ServiceState)
    (uid : String) (payload : List (String × JValue)) :
    (payloadGet payload "agreed_to_terms" ≠ some (JValue.bool true) →
      editorPrerequisitesPost v st uid payload =
        JsonResult.invalidInput licenseTermsMsg st) ∧
    (payloadGet payload "agreed_to_terms" = some (JValue.bool true) →
      editorPrerequisitesPost v st uid payload =
        usernamePhase v (record_agreement_to_terms st uid) uid (payloadGet payload "username") ∧
      ∀ us, get_user_settings st uid = some us →
        ∃ us2, get_user_settings (editorPrerequisitesPost v st uid payload).state uid = some us2 ∧
          us2.last_agreed_to_terms = some 1) := by
  refine ⟨fun h => editorPost_no_agree v st uid payload h,
    fun h => ⟨editorPost_agree v st uid payload h, fun us hus => ?_⟩⟩
  rw [editorPost_agree v st uid payload h]
  have hst1 : get_user_settings (record_agreement_to_terms st uid) uid =
      some { us with last_agreed_to_terms := some 1 } := by
    rw [get_user_settings_record, hus]
    rfl
  unfold usernamePhase
  by_cases htr : optStrTruthy (get_username (record_agreement_to_terms st uid) uid) = true
  · simp only [htr, if_true, JsonResult.state]
    exact ⟨_, hst1, rfl⟩
  · have hfa : optStrTruthy (get_username (record_agreement_to_terms st uid) uid) = false :=
      Bool.eq_false_iff.mpr htr
    simp only [hfa, Bool.false_eq_true, if_false]
    cases hsu : set_username v (record_agreement_to_terms st uid) uid (payloadGet payload "username") with
    | error e =>
        simp only [JsonResult.state]
        exact ⟨_, hst1, rfl⟩
    | ok st2 =>
        have hshape := set_username_ok_shape v _ uid _ st2 hsu
        subst hshape
        simp only [JsonResult.state]
        rw [get_user_settings_updateUser_self, hst1]
        exact ⟨_, rfl, rfl⟩

/-- C2 witness: a truthy non-boolean agreement value is refused with the
state untouched; the strict boolean true reaches the username phase on the
recorded-agreement state. -/
theorem c2_witness :
    editorPrerequisitesPost acceptAll sampleState "u2" payloadNoTerms =
      JsonResult.invalidInput licenseTermsMsg sampleState ∧
    editorPrerequisitesPost acceptAll sampleState "u2" payloadAgreeBob =
      usernamePhase acceptAll (record_agreement_to_terms sampleState "u2") "u2"
        (payloadGet payloadAgreeBob "username") :=
  ⟨(c2_terms_gate acceptAll sampleState "u2" payloadNoTerms).1 (by decide),
   ((c2_terms_gate acceptAll sampleState "u2" payloadAgreeBob).2 (by decide)).1⟩

/-- C3: for a user without a username who accepts the terms, a
ValidationError from set_username is caught and re-raised as invalid input
carrying the same message, and a successful set_username yields the empty
success JSON on the updated state. -/
theorem c3_validation_error_reraised (v : Option JValue → Option String) (st : ServiceState)
    (uid : String) (payload : List (String × JValue))
    (hag : payloadGet payload "agreed_to_terms" = some (JValue.bool true))
    (hnone : get_username st uid = none) :
    (∀ msg, set_username v (record_agreement_to_terms st uid) uid (payloadGet payload "username") =
        Except.error msg →
      editorPrerequisitesPost v st uid payload =
        JsonResult.invalidInput msg (record_agreement_to_terms st uid)) ∧
    (∀ st2, set_username v (record_agreement_to_terms st uid) uid (payloadGet payload "username") =
        Except.ok st2 →
      editorPrerequisitesPost v st uid payload = JsonResult.ok [] st2) := by
  have hfa : optStrTruthy (get_username (record_agreement_to_terms st uid) uid) = false := by
    rw [get_username_record, hnone]
    rfl
  refine ⟨fun msg hsu => ?_, fun st2 hsu => ?_⟩ <;>
    · rw [editorPost_agree v st uid payload hag]
      simp [usernamePhase, hfa, hsu]

/-- C3 witness: a rejecting validator turns the POST into invalid input
carrying its message. -/
theorem c3_witness :
    editorPrerequisitesPost rejectAll sampleState "u2" payloadAgreeBob =
      JsonResult.invalidInput "bad username" (record_agreement_to_terms sampleState "u2") :=
  (c3_validation_error_reraised rejectAll sampleState "u2" payloadAgreeBob
      (by decide) (by decide)).1 "bad username" rfl

/-- C4: a PUT to PreferencesHandler invokes the bio update when the update
type is user_bio, the language-codes update when it is
preferred_language_codes, and for every other update type (a missing one
included) raises invalid input and performs no update, leaving the state
untouched. -/
theorem c4_preferences_put_dispatch (st : ServiceState) (uid : String)
    (payload : List (String × JValue)) :
    (payloadGet payload "update_type" = some (JValue.str "user_bio") →
      preferencesPut st uid payload =
        JsonResult.ok [] (update_user_bio st uid (payloadGet payload "data"))) ∧
    (payloadGet payload "update_type" = some (JValue.str "preferred_language_codes") →
      preferencesPut st uid payload =
        JsonResult.ok [] (update_preferred_language_codes st uid (payloadGet payload "data"))) ∧
    (payloadGet payload "update_type" ≠ some (JValue.str "user_bio") →
      payloadGet payload "update_type" ≠ some (JValue.str "preferred_language_codes") →
      preferencesPut st uid payload =
        JsonResult.invalidInput ("Invalid update type: " ++ pyStr (payloadGet payload "update_type")) st) := by
  refine ⟨fun h => ?_, fun h => ?_, fun h1 h2 => ?_⟩
  · simp [preferencesPut, h]
  · simp [preferencesPut, h]
  · simp [preferencesPut, beq_iff_eq, h1, h2]

/-- C4 witness: the three dispatch branches at concrete payloads. -/
theorem c4_witness :
    preferencesPut sampleState "u1" payloadBioPut =
      JsonResult.ok [] (update_user_bio sampleState "u1" (payloadGet payloadBioPut "data")) ∧
    preferencesPut sampleState "u1" payloadLangPut =
      JsonResult.ok [] (update_preferred_language_codes sampleState "u1" (payloadGet payloadLangPut "data")) ∧
    preferencesPut sampleState "u1" payloadBadPut =
      JsonResult.invalidInput ("Invalid update type: " ++ pyStr (payloadGet payloadBadPut "update_type")) sampleState :=
  ⟨(c4_preferences_put_dispatch sampleState "u1" payloadBioPut).1 (by decide),
   (c4_preferences_put_dispatch sampleState "u1" payloadLangPut).2.1 (by decide),
   (c4_preferences_put_dispatch sampleState "u1" payloadBadPut).2.2 (by decide) (by decide)⟩

/-- C5: a GET to ProfilePage yields not-found on an empty username and on a
username with no stored settings, and otherwise renders the profile
template with the navigation mode and exactly the stored bio; the handler
performs no writes (its result type carries no successor state). -/
theorem c5_profile_page (st : ServiceState) (username : String) :
    (username = "" → profilePageGet st username = PageResult.notFound) ∧
    (get_user_settings_from_username st username = none →
      profilePageGet st username = PageResult.notFound) ∧
    (∀ us, username ≠ "" → get_user_settings_from_username st username = some us →
      profilePageGet st username =
        PageResult.render "profile/profile.html" NAV_MODE_PROFILE us.user_bio) := by
  refine ⟨fun h => ?_, fun h => ?_, fun us h1 h2 => ?_⟩
  · simp [profilePageGet, h]
  · by_cases he : username = "" <;> simp [profilePageGet, he, h]
  · simp [profilePageGet, h1, h2]

/-- C5 witness: not-found on the empty and the unknown username, render on
the known one, at a concrete store. -/
theorem c5_witness :
    profilePageGet sampleState "" = PageResult.notFound ∧
    profilePageGet sampleState "nobody" = PageResult.notFound ∧
    profilePageGet sampleState "alice" =
      PageResult.render "profile/profile.html" NAV_MODE_PROFILE aliceSettings.user_bio :=
  ⟨(c5_profile_page sampleState "").1 rfl,
   (c5_profile_page sampleState "nobody").2.1 (by decide),
   (c5_profile_page sampleState "alice").2.2 aliceSettings (by decide) (by decide)⟩

/-- C6: a POST to UsernameCheckHandler raises invalid input carrying the
validation message when the static validator rejects the submitted
username, and otherwise answers with username_is_taken true exactly when
the username already exists among stored user settings, without touching
the state. -/
theorem c6_username_check (v : Option JValue → Option String) (st : ServiceState)
    (uid : String) (payload : List (String × JValue)) :
    (∀ msg, v (payloadGet payload "username") = some msg →
      usernameCheckPost v st uid payload = JsonResult.invalidInput msg st) ∧
    (v (payloadGet payload "username") = none →
      usernameCheckPost v st uid payload =
        JsonResult.ok
          [("username_is_taken", JValue.bool (is_username_taken st (payloadGet payload "username")))] st ∧
      (is_username_taken st (payloadGet payload "username") = true ↔
        ∃ s, usernameOfPayloadValue (payloadGet payload "username") = some s ∧
          ∃ p ∈ st.users, p.2.username = some s)) := by
  refine ⟨fun msg h => ?_, fun h => ⟨?_, ?_⟩⟩
  · simp [usernameCheckPost, h]
  · simp [usernameCheckPost, h]
  · cases hu : usernameOfPayloadValue (payloadGet payload "username") with
    | none => simp [is_username_taken, hu]
    | some s => simp [is_username_taken, hu, List.any_eq_true, beq_iff_eq]

/-- C6 witness: rejection with the validation message, and the taken check
on a fresh username, at a concrete store. -/
theorem c6_witness :
    usernameCheckPost rejectAll sampleState "u1" payloadUsernameBob =
      JsonResult.invalidInput "bad username" sampleState ∧
    usernameCheckPost acceptAll sampleState "u1" payloadUsernameBob =
      JsonResult.ok
        [("username_is_taken", JValue.bool (is_username_taken sampleState (payloadGet payloadUsernameBob "username")))]
        sampleState :=
  ⟨(c6_username_check rejectAll sampleState "u1" payloadUsernameBob).1 "bad username" rfl,
   ((c6_username_check acceptAll sampleState "u1" payloadUsernameBob).2 rfl).1⟩

/-- C8: a GET to EditorPrerequisitesHandler answers with exactly the two
fields has_agreed_to_terms and username, where has_agreed_to_terms is true
iff the stored last_agreed_to_terms is present and username is the stored
username, rendered as JSON null when none has been set. -/
theorem c8_editor_prerequisites_get (st : ServiceState) (uid : String)
    (us : UserSettings) (h : get_user_settings st uid = some us) :
    editorPrerequisitesGet st uid =
      some [("has_agreed_to_terms", JValue.bool us.last_agreed_to_terms.isSome),
            ("username", jOfOptStr us.username)] ∧
    (editorPrerequisitesGet st uid).map (fun j => j.map Prod.fst) =
      some ["has_agreed_to_terms", "username"] ∧
    (us.last_agreed_to_terms.isSome = true ↔ us.last_agreed_to_terms ≠ none) ∧
    (us.username = none → jOfOptStr us.username = JValue.null) := by
  refine ⟨?_, ?_, ?_, fun hn => ?_⟩
  · simp [editorPrerequisitesGet, h]
  · simp [editorPrerequisitesGet, h]
  · exact Option.isSome_iff_ne_none
  · rw [hn]
    rfl

/-- C8 witness: the two-field body for a user with terms agreed and a set
username, at a concrete store. -/
theorem c8_witness :
    editorPrerequisitesGet sampleState "u1" =
      some [("has_agreed_to_terms", JValue.bool aliceSettings.last_agreed_to_terms.isSome),
            ("username", jOfOptStr aliceSettings.username)] :=
  (c8_editor_prerequisites_get sampleState "u1" aliceSettings (by decide)).1

/-- C7: a successful PUT of a bio via PreferencesHandler followed by a GET
by the same user reads back exactly the submitted bio. -/
theorem c7_bio_round_trip (st : ServiceState) (uid : String)
    (payload : List (String × JValue)) (bio : JValue) (us : UserSettings)
    (ht : payloadGet payload "update_type" = some (JValue.str "user_bio"))
    (hd : payloadGet payload "data" = some bio)
    (hus : get_user_settings st uid = some us) :
    preferencesPut st uid payload = JsonResult.ok [] (update_user_bio st uid (some bio)) ∧
    ∃ j, preferencesGet (update_user_bio st uid (some bio)) uid = some j ∧
      payloadGet j "user_bio" = some bio := by
  constructor
  · simp [preferencesPut, ht, hd]
  · have hget : get_user_settings (update_user_bio st uid (some bio)) uid =
        some { us with user_bio := bio } := by
      unfold update_user_bio
      rw [get_user_settings_updateUser_self, hus]
      rfl
    refine ⟨[("user_bio", bio), ("preferred_language_codes", us.preferred_language_codes)], ?_, ?_⟩
    · simp [preferencesGet, hget]
    · simp [payloadGet, List.find?_cons]

/-- C7 witness: the round trip at a concrete store, user and bio. -/
theorem c7_witness :
    preferencesPut sampleState "u1" payloadBioPut =
      JsonResult.ok [] (update_user_bio sampleState "u1" (some (JValue.str "new bio"))) ∧
    ∃ j, preferencesGet (update_user_bio sampleState "u1" (some (JValue.str "new bio"))) "u1" =
        some j ∧ payloadGet j "user_bio" = some (JValue.str "new bio") :=
  c7_bio_round_trip sampleState "u1" payloadBioPut (JValue.str "new bio") aliceSettings
    (by decide) (by decide) (by decide)

/-- C9: the POST is not atomic on its username-validation error path: when
the terms are accepted, the user has no username and set_username fails,
the response is invalid input, yet its state already carries the recorded
agreement to terms. -/
theorem c9_agreement_persists_on_failure (v : Option JValue → Option String)
    (st : ServiceState) (uid : String) (payload : List (String × JValue))
    (msg : String) (us : UserSettings)
    (hag : payloadGet payload "agreed_to_terms" = some (JValue.bool true))
    (hnone : get_username st uid = none)
    (herr : set_username v (record_agreement_to_terms st uid) uid (payloadGet payload "username") =
      Except.error msg)
    (hus : get_user_settings st uid = some us) :
    editorPrerequisitesPost v st uid payload =
      JsonResult.invalidInput msg (record_agreement_to_terms st uid) ∧
    get_user_settings (editorPrerequisitesPost v st uid payload).state uid =
      some { us with last_agreed_to_terms := some 1 } := by
  have hfa : optStrTruthy (get_username (record_agreement_to_terms st uid) uid) = false := by
    rw [get_username_record, hnone]
    rfl
  have hpost : editorPrerequisitesPost v st uid payload =
      JsonResult.invalidInput msg (record_agreement_to_terms st uid) := by
    rw [editorPost_agree v st uid payload hag]
    simp [usernamePhase, hfa, herr]
  refine ⟨hpost, ?_⟩
  rw [hpost]
  simp only [JsonResult.state]
  rw [get_user_settings_record, hus]
  rfl

/-- C9 witness: with a rejecting validator, a fresh user who accepts the
terms gets invalid input while the failing request has already stored the
agreement. -/
theorem c9_witness :
    editorPrerequisitesPost rejectAll sampleState "u2" payloadAgreeBob =
      JsonResult.invalidInput "bad username" (record_agreement_to_terms sampleState "u2") ∧
    get_user_settings (editorPrerequisitesPost rejectAll sampleState "u2" payloadAgreeBob).state "u2" =
      some { freshSettings with last_agreed_to_terms := some 1 } :=
  c9_agreement_persists_on_failure rejectAll sampleState "u2" payloadAgreeBob
    "bad username" freshSettings (by decide) (by decide) rfl (by decide)

/-- C10: neither POST handler gives a missing username key its own
missing-field error: the absent value flows unchanged into the static
validator of the username check and into set_username of the editor
prerequisites POST, whose outcomes alone decide the response. -/
theorem c10_missing_username_flows_to_service (v : Option JValue → Option String)
    (st : ServiceState) (uid : String) (payload : List (String × JValue))
    (h : payloadGet payload "username" = none) :
    (∀ msg, v none = some msg →
      usernameCheckPost v st uid payload = JsonResult.invalidInput msg st) ∧
    (v none = none →
      usernameCheckPost v st uid payload =
        JsonResult.ok [("username_is_taken", JValue.bool (is_username_taken st none))] st) ∧
    (payloadGet payload "agreed_to_terms" = some (JValue.bool true) →
      get_username st uid = none →
      (∀ st2, set_username v (record_agreement_to_terms st uid) uid none = Except.ok st2 →
        editorPrerequisitesPost v st uid payload = JsonResult.ok [] st2) ∧
      (∀ msg, set_username v (record_agreement_to_terms st uid) uid none = Except.error msg →
        editorPrerequisitesPost v st uid payload =
          JsonResult.invalidInput msg (record_agreement_to_terms st uid))) := by
  refine ⟨fun msg hv => ?_, fun hv => ?_, fun hag hnone => ?_⟩
  · simp [usernameCheckPost, h, hv]
  · simp [usernameCheckPost, h, hv]
  · have hfa : optStrTruthy (get_username (record_agreement_to_terms st uid) uid) = false := by
      rw [get_username_record, hnone]
      rfl
    refine ⟨fun st2 hsu => ?_, fun msg hsu => ?_⟩ <;>
      · rw [editorPost_agree v st uid payload hag, h]
        simp [usernamePhase, hfa, hsu]

/-- C10 witness: with no username key, the username check reports the
validator's rejection and the editor POST reports the outcome of
set_username on the absent value. -/
theorem c10_witness :
    usernameCheckPost rejectAll sampleState "u1" payloadAgreeOnly =
      JsonResult.invalidInput "bad username" sampleState ∧
    editorPrerequisitesPost acceptAll sampleState "u2" payloadAgreeOnly =
      JsonResult.ok []
        (updateUser (record_agreement_to_terms sampleState "u2") "u2"
          (fun us => { us with username := usernameOfPayloadValue none })) :=
  ⟨(c10_missing_username_flows_to_service rejectAll sampleState "u1" payloadAgreeOnly
      (by decide)).1 "bad username" rfl,
   ((c10_missing_username_flows_to_service acceptAll sampleState "u2" payloadAgreeOnly
      (by decide)).2.2 (by decide) (by decide)).1
     (updateUser (record_agreement_to_terms sampleState "u2") "u2"
       (fun us => { us with username := usernameOfPayloadValue none })) rfl⟩

end Profile
